import Mathlib

/-
Verification of the transactional key-value core of `rust-rocksdb`
(`src/transactions/transaction.rs`).

The Rust file is a thin wrapper: every operation forwards through FFI to the
storage engine's transaction implementation (`rocksdb_transaction_*`), which is
not part of the sources under verification.  We therefore work in two layers:

* namespace `Model` — the transaction engine (state machine, write buffer,
  optimistic conflict records, pessimistic lock records, savepoint stack,
  commit/rollback), modelled from the specification since its code is not in
  the sources.
* namespace `Wrapper` — the Rust-side glue that is in the sources: the
  translation of the raw FFI result of a `get` (error pointer, value pointer,
  value length) into `Result<Option<DBVector>>`.
-/

namespace RocksTx

/-- Keys are byte strings. -/
abbrev Key := List Nat

/-- Values are byte strings. -/
abbrev Val := List Nat

namespace Model

/-- Modelled from the spec: a pending operation in the transaction-local write
buffer — `Put(value)`, `Delete`, or `Merge(operand)` (spec §3 "Write Buffer
Entry").  The write-buffer code itself lives in the storage engine, not in the
Rust sources. -/
inductive BufOp where
  | putv (v : Val)
  | del
  | mergev (v : Val)
deriving DecidableEq

/-- Modelled from the spec: transaction lifecycle state
`Active | Committed | RolledBack` (spec §3, §4.5).  The state machine lives in
the storage engine, not in the Rust sources. -/
inductive TxState where
  | active
  | committed
  | rolledBack
deriving DecidableEq

/-- Modelled from the spec: the concurrency-control strategy selected at
transaction-begin time (spec §4.2, §4.3). -/
inductive Mode where
  | optimistic
  | pessimistic
deriving DecidableEq

/-- Modelled from the spec: the error kinds of §7.  Storage-fatal pass-through
errors are represented by `storageFatal`. -/
inductive TxError where
  | conflict
  | retryableConflict
  | lockTimeout
  | deadlock
  | expired
  | mergeInProgress
  | noSavepoint
  | invalidState
  | storageFatal
deriving DecidableEq

/-- Modelled from the spec: the committed state of the storage engine as seen
by the transaction layer (spec §6 "Consumed from the Storage Accessor"):
committed values per key, the commit sequence number (version) at which each
key was last written, a global sequence counter, the change-history retention
floor (versions below it are no longer available for comparison, spec §4.2
step 3), the merge operator, and whether the engine can resolve a pending
merge transparently during a transactional read (spec §4.5 "get / get_cf"). -/
structure Engine where
  committed : Key → Option Val
  version : Key → Nat
  seq : Nat
  historyFloor : Nat
  mergeOp : Option Val → Val → Val
  resolvesMergeOnRead : Bool

/-- Modelled from the spec: the transaction object of §3 — lifecycle state,
mode, write buffer (append-ordered, most recent operation per key wins),
optimistic conflict records `(key, observed version)`, pessimistic lock
records `(key, exclusive)`, savepoint stack of
`(write-buffer length, lock-record count)` pairs, and optional snapshot
sequence number. -/
structure Txn where
  state : TxState
  mode : Mode
  buffer : List (Key × BufOp)
  conflictRecs : List (Key × Nat)
  locks : List (Key × Bool)
  savepoints : List (Nat × Nat)
  snapshot : Option Nat

/-- Modelled from the spec: the coordinator's "begin" operation (spec §3):
fresh `Active` transaction with empty buffer, records, locks and savepoints. -/
def beginTxn (m : Mode) (snap : Option Nat) : Txn :=
  { state := .active
    mode := m
    buffer := []
    conflictRecs := []
    locks := []
    savepoints := []
    snapshot := snap }

/-- Modelled from the spec: the effective pending operation for a key — the
most recent buffered operation wins (spec §3 "Write Buffer Entry", §4.1). -/
def pendingOp (buf : List (Key × BufOp)) (k : Key) : Option BufOp :=
  match buf.reverse.find? (fun kv => decide (kv.1 = k)) with
  | some kv => some kv.2
  | none => none

/-- Modelled from the spec: the version observed for a key when it is first
read-for-update or written — the snapshot sequence number when a snapshot is
set, otherwise the key's current committed version (spec §4.2). -/
def observedVersion (e : Engine) (t : Txn) (k : Key) : Nat :=
  match t.snapshot with
  | some s => s
  | none => e.version k

/-- Modelled from the spec: record the observed version for a key on its
first read-for-update or write within the transaction (spec §4.2); a key
already recorded keeps its original record. -/
def recordVersion (e : Engine) (t : Txn) (k : Key) : Txn :=
  if t.conflictRecs.any (fun kv => decide (kv.1 = k)) then t
  else { t with conflictRecs := t.conflictRecs ++ [(k, observedVersion e t k)] }

/-- Modelled from the spec: a transactional point read — the write buffer is
consulted first; a pending `Put` or `Delete` answers directly; a pending
`Merge` is resolved against the engine value when the engine can do so
transparently and signals `MergeInProgress` otherwise; with no pending
operation the read falls back to the engine (spec §4.5 "get / get_cf"). -/
def txnRead (e : Engine) (t : Txn) (k : Key) : Except TxError (Option Val) :=
  match pendingOp t.buffer k with
  | some (.putv v) => .ok (some v)
  | some .del => .ok none
  | some (.mergev v) =>
    if e.resolvesMergeOnRead then .ok (some (e.mergeOp (e.committed k) v))
    else .error .mergeInProgress
  | none => .ok (e.committed k)

/-- Modelled from the spec: `get` on a transaction — `InvalidState` on a
terminal transaction (spec §4.5), otherwise a transactional read. -/
def get (e : Engine) (t : Txn) (k : Key) : Except TxError (Option Val) × Txn :=
  if t.state = .active then (txnRead e t k, t) else (.error .invalidState, t)

/-- Modelled from the spec: the outcome of a pessimistic lock-acquisition
attempt, decided by the concurrent lock table (spec §4.3) — granted, timed
out waiting, or refused because granting would create a wait-for cycle.  The
concurrent lock table itself is outside the shallow embedding, so the outcome
is an input. -/
inductive LockGrant where
  | granted
  | timedOut
  | deadlocked
deriving DecidableEq

/-- Modelled from the spec: `get_for_update` (spec §4.2/§4.3/§4.5) — on an
optimistic transaction it records the key's observed version and reads; on a
pessimistic transaction it acquires a lock (the lock table's decision given
as `g`), signalling `LockTimeout` or `Deadlock` on failure and appending a
lock record on success; `InvalidState` on a terminal transaction. -/
def get_for_update (e : Engine) (t : Txn) (k : Key) (exclusive : Bool)
    (g : LockGrant) : Except TxError (Option Val) × Txn :=
  if t.state = .active then
    match t.mode with
    | .optimistic =>
      let t1 := recordVersion e t k
      (txnRead e t1 k, t1)
    | .pessimistic =>
      match g with
      | .timedOut => (.error .lockTimeout, t)
      | .deadlocked => (.error .deadlock, t)
      | .granted =>
        let t1 := { t with locks := t.locks ++ [(k, exclusive)] }
        (txnRead e t1 k, t1)
  else (.error .invalidState, t)

/-- Modelled from the spec: `put` (spec §4.5) — appends to the write buffer
and registers the key with the conflict detector as a write-intent;
`InvalidState` on a terminal transaction. -/
def put (e : Engine) (t : Txn) (k : Key) (v : Val) : Except TxError Unit × Txn :=
  if t.state = .active then
    let t1 := if t.mode = .optimistic then recordVersion e t k else t
    (.ok (), { t1 with buffer := t1.buffer ++ [(k, .putv v)] })
  else (.error .invalidState, t)

/-- Modelled from the spec: `delete` (spec §4.5) — appends a delete entry to
the write buffer and registers the key with the conflict detector;
`InvalidState` on a terminal transaction. -/
def delete (e : Engine) (t : Txn) (k : Key) : Except TxError Unit × Txn :=
  if t.state = .active then
    let t1 := if t.mode = .optimistic then recordVersion e t k else t
    (.ok (), { t1 with buffer := t1.buffer ++ [(k, .del)] })
  else (.error .invalidState, t)

/-- Modelled from the spec: `merge` (spec §4.5) — appends a merge entry to
the write buffer and registers the key with the conflict detector;
`InvalidState` on a terminal transaction. -/
def merge (e : Engine) (t : Txn) (k : Key) (v : Val) : Except TxError Unit × Txn :=
  if t.state = .active then
    let t1 := if t.mode = .optimistic then recordVersion e t k else t
    (.ok (), { t1 with buffer := t1.buffer ++ [(k, .mergev v)] })
  else (.error .invalidState, t)

/-- Modelled from the spec: `set_savepoint` (spec §4.4) — pushes the current
write-buffer length and lock-record count; `InvalidState` on a terminal
transaction. -/
def set_savepoint (t : Txn) : Except TxError Unit × Txn :=
  if t.state = .active then
    (.ok (), { t with savepoints := (t.buffer.length, t.locks.length) :: t.savepoints })
  else (.error .invalidState, t)

/-- Modelled from the spec: `rollback_to_savepoint` (spec §4.4) — pops the
most recent savepoint, truncates the write buffer to its recorded length and
the lock records to its recorded count; `NoSavepoint` on an empty stack;
`InvalidState` on a terminal transaction. -/
def rollback_to_savepoint (t : Txn) : Except TxError Unit × Txn :=
  if t.state = .active then
    match t.savepoints with
    | [] => (.error .noSavepoint, t)
    | (l, n) :: rest =>
      (.ok (), { t with buffer := t.buffer.take l
                        locks := t.locks.take n
                        savepoints := rest })
  else (.error .invalidState, t)

/-- Modelled from the spec: `rollback` (spec §4.5) — discards the write
buffer, releases all locks, state becomes `RolledBack`; the engine's
committed state is untouched; `InvalidState` on a terminal transaction. -/
def rollback (e : Engine) (t : Txn) : Except TxError Unit × Engine × Txn :=
  if t.state = .active then
    (.ok (), e, { t with state := .rolledBack
                         buffer := []
                         locks := []
                         savepoints := [] })
  else (.error .invalidState, e, t)

/-- Modelled from the spec: a conflict record whose recorded version is still
inside the history window but no longer matches the key's currently-committed
version (spec §4.2 steps 1–2). -/
def versionMismatch (e : Engine) (kv : Key × Nat) : Bool :=
  decide (e.historyFloor ≤ kv.2) && decide (¬ e.version kv.1 = kv.2)

/-- Modelled from the spec: a conflict record whose recorded version has
fallen out of the engine's change-history retention window, so the old
version is no longer available for comparison (spec §4.2 step 3). -/
def belowHistory (e : Engine) (kv : Key × Nat) : Bool :=
  decide (kv.2 < e.historyFloor)

/-- Modelled from the spec: optimistic commit-time validation (spec §4.2) —
any mismatch yields `Conflict`; otherwise, a record outside the history
window yields `RetryableConflict`; otherwise validation passes. -/
def validate (e : Engine) (recs : List (Key × Nat)) : Option TxError :=
  if recs.any (versionMismatch e) then some .conflict
  else if recs.any (belowHistory e) then some .retryableConflict
  else none

/-- Modelled from the spec: applying one buffered operation to the engine at
commit sequence `s` (spec §4.2 step 4). -/
def applyOp (s : Nat) (e : Engine) (kop : Key × BufOp) : Engine :=
  match kop.2 with
  | .putv v =>
    { e with committed := fun k2 => if k2 = kop.1 then some v else e.committed k2
             version := fun k2 => if k2 = kop.1 then s else e.version k2 }
  | .del =>
    { e with committed := fun k2 => if k2 = kop.1 then none else e.committed k2
             version := fun k2 => if k2 = kop.1 then s else e.version k2 }
  | .mergev v =>
    { e with committed := fun k2 =>
               if k2 = kop.1 then some (e.mergeOp (e.committed kop.1) v)
               else e.committed k2
             version := fun k2 => if k2 = kop.1 then s else e.version k2 }

/-- Modelled from the spec: atomically applying the whole write buffer to the
engine at a single fresh commit sequence number (spec §4.2 step 4). -/
def applyBuffer (e : Engine) (buf : List (Key × BufOp)) : Engine :=
  { buf.foldl (applyOp (e.seq + 1)) e with seq := e.seq + 1 }

/-- Modelled from the spec: `commit` (spec §4.5) — `InvalidState` on a
terminal transaction; an expired transaction fails with `Expired` and
transitions to `RolledBack`, releasing its locks; an optimistic transaction
validates its conflict records and on failure stays `Active` with the engine
untouched; on success (and under pessimistic mode, where held locks already
serialize writers) the buffer is applied atomically, locks are released and
the state becomes `Committed`.  Whether the expiration timer has fired is an
input (`expiredNow`), as wall-clock time is outside the embedding. -/
def commit (e : Engine) (t : Txn) (expiredNow : Bool) :
    Except TxError Unit × Engine × Txn :=
  if t.state = .active then
    if expiredNow then
      (.error .expired, e, { t with state := .rolledBack
                                    buffer := []
                                    locks := []
                                    savepoints := [] })
    else
      match t.mode with
      | .optimistic =>
        match validate e t.conflictRecs with
        | some err => (.error err, e, t)
        | none =>
          (.ok (), applyBuffer e t.buffer, { t with state := .committed, locks := [] })
      | .pessimistic =>
        (.ok (), applyBuffer e t.buffer, { t with state := .committed, locks := [] })
  else (.error .invalidState, e, t)

/-- Modelled from the spec: dropping a transaction without commit or rollback
(spec §4.5 "drop without commit/rollback", §3) — an active transaction is
implicitly rolled back (buffer discarded, locks released, engine untouched);
a terminal transaction only releases its handle. -/
def dropTxn (e : Engine) (t : Txn) : Engine × Txn :=
  if t.state = .active then
    (e, { t with state := .rolledBack
                 buffer := []
                 locks := []
                 savepoints := [] })
  else (e, t)

/-- Modelled from the spec: one non-savepoint, non-terminal operation of the
coordinator surface, for reasoning about operation sequences (spec §4.5). -/
inductive TxOp where
  | putOp (k : Key) (v : Val)
  | deleteOp (k : Key)
  | mergeWriteOp (k : Key) (v : Val)
  | getOp (k : Key)
  | getForUpdateOp (k : Key) (exclusive : Bool) (g : LockGrant)

/-- Modelled from the spec: the transaction state after one operation
(results and errors are reported to the caller and do not alter the engine). -/
def step (e : Engine) (t : Txn) : TxOp → Txn
  | .putOp k v => (put e t k v).2
  | .deleteOp k => (delete e t k).2
  | .mergeWriteOp k v => (merge e t k v).2
  | .getOp k => (get e t k).2
  | .getForUpdateOp k ex g => (get_for_update e t k ex g).2

/-- Modelled from the spec: running a sequence of operations on a
transaction. -/
def run (e : Engine) (t : Txn) (ops : List TxOp) : Txn :=
  ops.foldl (step e) t

end Model

namespace Wrapper

/-- The raw outcome of one `rocksdb_transaction_get`-family FFI call as the
Rust wrapper observes it: the error pointer filled in by `ffi_try!` (none on
success), the returned value pointer (`none` models a null pointer; `some
mem` models a non-null pointer to the byte at each offset), and the value
length written through `val_len`. -/
structure RawGetResult where
  errptr : Option String
  val_ptr : Option (Nat → Nat)
  val_len : Nat

/-- `DBVector::from_c(ptr, len)`: the vector of exactly `len` bytes read from
the returned pointer. -/
def dbVectorFromC (mem : Nat → Nat) (len : Nat) : List Nat :=
  (List.range len).map mem

/-- `Transaction::get_opt` (transaction.rs lines 211–232): propagate an FFI
error; a null value pointer becomes `Ok(None)`; a non-null pointer becomes
`Ok(Some(DBVector::from_c(val_ptr, val_len)))`. -/
def get_opt (r : RawGetResult) : Except String (Option (List Nat)) :=
  match r.errptr with
  | some e => .error e
  | none =>
    match r.val_ptr with
    | none => .ok none
    | some mem => .ok (some (dbVectorFromC mem r.val_len))

/-- `Transaction::get_cf_opt` (lines 241–264): identical result handling to
`get_opt`; the column-family handle only selects which raw result the engine
produces. -/
def get_cf_opt (cf : Nat) (r : RawGetResult) : Except String (Option (List Nat)) :=
  match r.errptr with
  | some e => .error e
  | none =>
    match r.val_ptr with
    | none => .ok none
    | some mem => .ok (some (dbVectorFromC mem r.val_len))

/-- `Transaction::get_for_update_opt` (lines 274–297): identical result
handling to `get_opt`; `exclusive` is forwarded to the engine. -/
def get_for_update_opt (exclusive : Bool) (r : RawGetResult) :
    Except String (Option (List Nat)) :=
  match r.errptr with
  | some e => .error e
  | none =>
    match r.val_ptr with
    | none => .ok none
    | some mem => .ok (some (dbVectorFromC mem r.val_len))

/-- `Transaction::get_for_update_cf_opt` (lines 327–352): identical result
handling to `get_opt`. -/
def get_for_update_cf_opt (cf : Nat) (exclusive : Bool) (r : RawGetResult) :
    Except String (Option (List Nat)) :=
  match r.errptr with
  | some e => .error e
  | none =>
    match r.val_ptr with
    | none => .ok none
    | some mem => .ok (some (dbVectorFromC mem r.val_len))

/-- `Transaction::get` (lines 156–158): delegates to `get_opt` with default
read options. -/
def get (r : RawGetResult) : Except String (Option (List Nat)) :=
  get_opt r

/-- `Transaction::get_cf` (lines 165–171): delegates to `get_cf_opt` with
default read options. -/
def get_cf (cf : Nat) (r : RawGetResult) : Except String (Option (List Nat)) :=
  get_cf_opt cf r

end Wrapper

namespace Model

theorem recordVersion_state (e : Engine) (t : Txn) (k : Key) :
    (recordVersion e t k).state = t.state := by
  unfold recordVersion
  split <;> rfl

theorem recordVersion_mode (e : Engine) (t : Txn) (k : Key) :
    (recordVersion e t k).mode = t.mode := by
  unfold recordVersion
  split <;> rfl

theorem recordVersion_buffer (e : Engine) (t : Txn) (k : Key) :
    (recordVersion e t k).buffer = t.buffer := by
  unfold recordVersion
  split <;> rfl

theorem recordVersion_locks (e : Engine) (t : Txn) (k : Key) :
    (recordVersion e t k).locks = t.locks := by
  unfold recordVersion
  split <;> rfl

theorem recordVersion_savepoints (e : Engine) (t : Txn) (k : Key) :
    (recordVersion e t k).savepoints = t.savepoints := by
  unfold recordVersion
  split <;> rfl

theorem pendingOp_append_self (buf : List (Key × BufOp)) (k : Key) (op : BufOp) :
    pendingOp (buf ++ [(k, op)]) k = some op := by
  simp [pendingOp, List.reverse_append]

theorem step_state (e : Engine) (t : Txn) (op : TxOp) :
    (step e t op).state = t.state := by
  cases op <;>
    simp only [step, put, delete, merge, get, get_for_update] <;>
    repeat' first
      | rfl
      | rw [recordVersion_state]
      | split

theorem step_mode (e : Engine) (t : Txn) (op : TxOp) :
    (step e t op).mode = t.mode := by
  cases op <;>
    simp only [step, put, delete, merge, get, get_for_update] <;>
    repeat' first
      | rfl
      | rw [recordVersion_mode]
      | split

theorem step_savepoints (e : Engine) (t : Txn) (op : TxOp) :
    (step e t op).savepoints = t.savepoints := by
  cases op <;>
    simp only [step, put, delete, merge, get, get_for_update] <;>
    repeat' first
      | rfl
      | rw [recordVersion_savepoints]
      | split

theorem step_buffer_extends (e : Engine) (t : Txn) (op : TxOp) :
    t.buffer <+: (step e t op).buffer := by
  cases op
  all_goals simp only [step, put, delete, merge, get, get_for_update]
  all_goals repeat' split
  all_goals
    first
      | exact List.prefix_rfl
      | exact List.prefix_append _ _
      | ((rw [recordVersion_buffer]) <;>
          first
            | exact List.prefix_rfl
            | exact List.prefix_append _ _)

theorem step_locks_extends (e : Engine) (t : Txn) (op : TxOp) :
    t.locks <+: (step e t op).locks := by
  cases op
  all_goals simp only [step, put, delete, merge, get, get_for_update]
  all_goals repeat' split
  all_goals
    first
      | exact List.prefix_rfl
      | exact List.prefix_append _ _
      | (rw [recordVersion_locks])

theorem run_state (e : Engine) (ops : List TxOp) (t : Txn) :
    (run e t ops).state = t.state := by
  induction ops generalizing t with
  | nil => rfl
  | cons op rest ih =>
    show (run e (step e t op) rest).state = t.state
    rw [ih (step e t op), step_state]

theorem run_mode (e : Engine) (ops : List TxOp) (t : Txn) :
    (run e t ops).mode = t.mode := by
  induction ops generalizing t with
  | nil => rfl
  | cons op rest ih =>
    show (run e (step e t op) rest).mode = t.mode
    rw [ih (step e t op), step_mode]

theorem run_savepoints (e : Engine) (ops : List TxOp) (t : Txn) :
    (run e t ops).savepoints = t.savepoints := by
  induction ops generalizing t with
  | nil => rfl
  | cons op rest ih =>
    show (run e (step e t op) rest).savepoints = t.savepoints
    rw [ih (step e t op), step_savepoints]

theorem run_buffer_extends (e : Engine) (ops : List TxOp) (t : Txn) :
    t.buffer <+: (run e t ops).buffer := by
  induction ops generalizing t with
  | nil => exact List.prefix_rfl
  | cons op rest ih =>
    exact (step_buffer_extends e t op).trans (ih (step e t op))

theorem run_locks_extends (e : Engine) (ops : List TxOp) (t : Txn) :
    t.locks <+: (run e t ops).locks := by
  induction ops generalizing t with
  | nil => exact List.prefix_rfl
  | cons op rest ih =>
    exact (step_locks_extends e t op).trans (ih (step e t op))

theorem validate_none_mem (e : Engine) (recs : List (Key × Nat))
    (h : validate e recs = none) (kv : Key × Nat) (hm : kv ∈ recs) :
    e.version kv.1 = kv.2 ∧ e.historyFloor ≤ kv.2 := by
  unfold validate at h
  by_cases h1 : recs.any (versionMismatch e) = true
  · rw [if_pos h1] at h
    cases h
  · rw [if_neg h1] at h
    by_cases h2 : recs.any (belowHistory e) = true
    · rw [if_pos h2] at h
      cases h
    · have hv : ¬ versionMismatch e kv = true := fun hc =>
        h1 (List.any_eq_true.mpr ⟨kv, hm, hc⟩)
      have hb : ¬ belowHistory e kv = true := fun hc =>
        h2 (List.any_eq_true.mpr ⟨kv, hm, hc⟩)
      unfold versionMismatch at hv
      unfold belowHistory at hb
      simp only [Bool.and_eq_true, decide_eq_true_eq, not_and, not_not,
        not_lt] at hv hb
      exact ⟨hv hb, hb⟩

theorem validate_cases (e : Engine) (recs : List (Key × Nat)) :
    validate e recs = none ∨ validate e recs = some .conflict ∨
      validate e recs = some .retryableConflict := by
  unfold validate
  by_cases h1 : recs.any (versionMismatch e) = true
  · rw [if_pos h1]
    exact Or.inr (Or.inl rfl)
  · rw [if_neg h1]
    by_cases h2 : recs.any (belowHistory e) = true
    · rw [if_pos h2]
      exact Or.inr (Or.inr rfl)
    · rw [if_neg h2]
      exact Or.inl rfl

/-- A concrete engine for witnesses: empty store, all versions 0, sequence 0,
history floor 0, append merge operator, merges not resolvable during
transactional reads. -/
def engine0 : Engine :=
  { committed := fun _ => none
    version := fun _ => 0
    seq := 0
    historyFloor := 0
    mergeOp := fun o v => o.getD [] ++ v
    resolvesMergeOnRead := false }

/-- A concrete active optimistic transaction holding one conflict record whose
recorded version 5 no longer matches the committed version 0 in `engine0`. -/
def txnConflict : Txn :=
  { beginTxn .optimistic none with conflictRecs := [([0], 5)] }

/-- C1: a commit that fails with a `Conflict`, `LockTimeout`, or `Deadlock`
error leaves the transaction in the `Active` state, so the caller may keep
using it; only an `Expired` failure transitions it to `RolledBack`. -/
theorem commit_conflict_errors_leave_active (e : Engine) (t : Txn)
    (expiredNow : Bool) (err : TxError)
    (hres : (commit e t expiredNow).1 = .error err) :
    ((err = .conflict ∨ err = .lockTimeout ∨ err = .deadlock) →
      (commit e t expiredNow).2.2.state = .active) ∧
    (err = .expired → (commit e t expiredNow).2.2.state = .rolledBack) := by
  by_cases hs : t.state = .active
  · cases expiredNow with
    | true =>
      have herr : TxError.expired = err := by
        unfold commit at hres
        simpa [hs] using hres
      subst herr
      constructor
      · rintro (h | h | h) <;> cases h
      · intro _
        unfold commit
        simp [hs]
    | false =>
      cases hmode : t.mode with
      | pessimistic =>
        exfalso
        unfold commit at hres
        simp [hs, hmode] at hres
      | optimistic =>
        rcases validate_cases e t.conflictRecs with hval | hval | hval
        · exfalso
          unfold commit at hres
          simp [hs, hmode, hval] at hres
        · have hst : (commit e t false).2.2.state = .active := by
            unfold commit
            simp [hs, hmode, hval]
          have herr : err = .conflict := by
            unfold commit at hres
            simp [hs, hmode, hval] at hres
            exact hres.symm
          subst herr
          refine ⟨fun _ => hst, ?_⟩
          rintro h
          cases h
        · have hst : (commit e t false).2.2.state = .active := by
            unfold commit
            simp [hs, hmode, hval]
          have herr : err = .retryableConflict := by
            unfold commit at hres
            simp [hs, hmode, hval] at hres
            exact hres.symm
          subst herr
          refine ⟨?_, ?_⟩
          · rintro (h | h | h) <;> cases h
          · rintro h
            cases h
  · have herr : err = .invalidState := by
      unfold commit at hres
      simp [hs] at hres
      exact hres.symm
    subst herr
    refine ⟨?_, ?_⟩
    · rintro (h | h | h) <;> cases h
    · rintro h
      cases h

/-- Witness for C1: in `engine0`, committing `txnConflict` fails with
`Conflict` and the transaction state stays `Active`. -/
theorem commit_conflict_errors_leave_active_witness :
    (commit engine0 txnConflict false).1 = .error .conflict ∧
    (commit engine0 txnConflict false).2.2.state = .active := by
  have h : (commit engine0 txnConflict false).1 = .error .conflict := rfl
  exact ⟨h,
    (commit_conflict_errors_leave_active engine0 txnConflict false .conflict h).1
      (Or.inl rfl)⟩

/-- C2: optimistic commit fails with `Conflict` and applies no writes when
some recorded key mismatches inside the history window; fails with
`RetryableConflict` when (with no such mismatch) some record has fallen out
of the retention window; otherwise succeeds and atomically applies the whole
buffer at one fresh sequence number. -/
theorem optimistic_commit_validation (e : Engine) (t : Txn)
    (hs : t.state = .active) (hm : t.mode = .optimistic) :
    (t.conflictRecs.any (versionMismatch e) = true →
      (commit e t false).1 = .error .conflict ∧ (commit e t false).2.1 = e) ∧
    (t.conflictRecs.any (versionMismatch e) = false →
      t.conflictRecs.any (belowHistory e) = true →
      (commit e t false).1 = .error .retryableConflict ∧
      (commit e t false).2.1 = e) ∧
    (t.conflictRecs.any (versionMismatch e) = false →
      t.conflictRecs.any (belowHistory e) = false →
      (commit e t false).1 = .ok () ∧
      (commit e t false).2.1 = applyBuffer e t.buffer ∧
      (commit e t false).2.1.seq = e.seq + 1) := by
  refine ⟨?_, ?_, ?_⟩
  · intro h1
    have hval : validate e t.conflictRecs = some .conflict := by
      unfold validate
      rw [if_pos h1]
    unfold commit
    simp [hs, hm, hval]
  · intro h1 h2
    have hval : validate e t.conflictRecs = some .retryableConflict := by
      unfold validate
      rw [if_neg (by simp [h1]), if_pos h2]
    unfold commit
    simp [hs, hm, hval]
  · intro h1 h2
    have hval : validate e t.conflictRecs = none := by
      unfold validate
      rw [if_neg (by simp [h1]), if_neg (by simp [h2])]
    unfold commit
    simp [hs, hm, hval, applyBuffer]

/-- Witness for C2: `txnConflict` has a version mismatch in `engine0`, so its
commit fails with `Conflict` and leaves the engine unchanged. -/
theorem optimistic_commit_validation_witness :
    txnConflict.conflictRecs.any (versionMismatch engine0) = true ∧
    (commit engine0 txnConflict false).1 = .error .conflict ∧
    (commit engine0 txnConflict false).2.1 = engine0 := by
  refine ⟨rfl, ?_, ?_⟩
  · exact ((optimistic_commit_validation engine0 txnConflict rfl rfl).1 rfl).1
  · exact ((optimistic_commit_validation engine0 txnConflict rfl rfl).1 rfl).2

/-- C3: after an arbitrary sequence of transactional operations starting from
"begin", rollback succeeds, leaves the storage engine's committed state
byte-identical to its state before the transaction began (for every key), and
discards all buffered writes and locks. -/
theorem rollback_preserves_engine (e : Engine) (m : Mode) (snap : Option Nat)
    (ops : List TxOp) :
    (rollback e (run e (beginTxn m snap) ops)).1 = .ok () ∧
    (rollback e (run e (beginTxn m snap) ops)).2.1 = e ∧
    (∀ k, ((rollback e (run e (beginTxn m snap) ops)).2.1).committed k
      = e.committed k) ∧
    (rollback e (run e (beginTxn m snap) ops)).2.2.buffer = [] ∧
    (rollback e (run e (beginTxn m snap) ops)).2.2.locks = [] ∧
    (rollback e (run e (beginTxn m snap) ops)).2.2.state = .rolledBack := by
  have hs : (run e (beginTxn m snap) ops).state = .active := by
    rw [run_state]
    rfl
  unfold rollback
  simp [hs]

theorem put_buffer (e : Engine) (t : Txn) (k : Key) (v : Val)
    (hs : t.state = .active) :
    (put e t k v).2.buffer = t.buffer ++ [(k, .putv v)] := by
  unfold put
  rw [if_pos hs]
  by_cases hm : t.mode = .optimistic
  · simp [hm, recordVersion_buffer]
  · simp [hm]

theorem delete_buffer (e : Engine) (t : Txn) (k : Key)
    (hs : t.state = .active) :
    (delete e t k).2.buffer = t.buffer ++ [(k, .del)] := by
  unfold delete
  rw [if_pos hs]
  by_cases hm : t.mode = .optimistic
  · simp [hm, recordVersion_buffer]
  · simp [hm]

theorem merge_buffer (e : Engine) (t : Txn) (k : Key) (v : Val)
    (hs : t.state = .active) :
    (merge e t k v).2.buffer = t.buffer ++ [(k, .mergev v)] := by
  unfold merge
  rw [if_pos hs]
  by_cases hm : t.mode = .optimistic
  · simp [hm, recordVersion_buffer]
  · simp [hm]

/-- C4: starting from any active transaction with no unconsumed savepoint, a
`set_savepoint` followed (after any sequence of read/write/lock operations)
by `rollback_to_savepoint` succeeds and exactly restores the write buffer,
the lock records, and the savepoint stack to their values at savepoint time,
consuming that savepoint — so a second `rollback_to_savepoint` without an
intervening `set_savepoint` fails with `NoSavepoint`, as does a
`rollback_to_savepoint` with no savepoint ever set. -/
theorem savepoint_rollback_exact_undo (e : Engine) (t1 : Txn)
    (ops : List TxOp) (hs1 : t1.state = .active) (hsv1 : t1.savepoints = []) :
    (rollback_to_savepoint (run e (set_savepoint t1).2 ops)).1 = .ok () ∧
    (rollback_to_savepoint (run e (set_savepoint t1).2 ops)).2.buffer
      = t1.buffer ∧
    (rollback_to_savepoint (run e (set_savepoint t1).2 ops)).2.locks
      = t1.locks ∧
    (rollback_to_savepoint (run e (set_savepoint t1).2 ops)).2.savepoints
      = t1.savepoints ∧
    (rollback_to_savepoint
        ((rollback_to_savepoint (run e (set_savepoint t1).2 ops)).2)).1
      = .error .noSavepoint ∧
    (rollback_to_savepoint t1).1 = .error .noSavepoint := by
  have hset : (set_savepoint t1).2
      = { t1 with savepoints := [(t1.buffer.length, t1.locks.length)] } := by
    unfold set_savepoint
    rw [if_pos hs1, hsv1]
  rw [hset]
  set t2 : Txn := { t1 with savepoints := [(t1.buffer.length, t1.locks.length)] }
    with ht2
  have hs3 : (run e t2 ops).state = .active := by
    rw [run_state]
    exact hs1
  have hsv3 : (run e t2 ops).savepoints
      = [(t1.buffer.length, t1.locks.length)] := by
    rw [run_savepoints]
  obtain ⟨b, hb⟩ := run_buffer_extends e ops t2
  obtain ⟨l, hl⟩ := run_locks_extends e ops t2
  have hb2 : t1.buffer ++ b = (run e t2 ops).buffer := hb
  have hl2 : t1.locks ++ l = (run e t2 ops).locks := hl
  have hroll : rollback_to_savepoint (run e t2 ops)
      = (.ok (), { run e t2 ops with
            buffer := (run e t2 ops).buffer.take t1.buffer.length
            locks := (run e t2 ops).locks.take t1.locks.length
            savepoints := [] }) := by
    unfold rollback_to_savepoint
    rw [if_pos hs3, hsv3]
  refine ⟨?_, ?_, ?_, ?_, ?_, ?_⟩
  · rw [hroll]
  · rw [hroll]
    show (run e t2 ops).buffer.take t1.buffer.length = t1.buffer
    rw [← hb2]
    exact List.take_left _ _
  · rw [hroll]
    show (run e t2 ops).locks.take t1.locks.length = t1.locks
    rw [← hl2]
    exact List.take_left _ _
  · rw [hroll, hsv1]
  · rw [hroll]
    unfold rollback_to_savepoint
    rw [if_pos hs3]
  · unfold rollback_to_savepoint
    rw [if_pos hs1, hsv1]

/-- Witness for C4: from the fresh transaction, a savepoint followed by one
put and a rollback-to-savepoint succeeds and restores the empty buffer. -/
theorem savepoint_rollback_exact_undo_witness :
    (beginTxn .optimistic none).state = .active ∧
    (beginTxn .optimistic none).savepoints = [] ∧
    (rollback_to_savepoint
        (run engine0 (set_savepoint (beginTxn .optimistic none)).2
          [TxOp.putOp [1] [2]])).1 = .ok () ∧
    (rollback_to_savepoint
        (run engine0 (set_savepoint (beginTxn .optimistic none)).2
          [TxOp.putOp [1] [2]])).2.buffer = (beginTxn .optimistic none).buffer := by
  have h := savepoint_rollback_exact_undo engine0 (beginTxn .optimistic none)
    [TxOp.putOp [1] [2]] rfl rfl
  exact ⟨rfl, rfl, h.1, h.2.1⟩

/-- C5: within one uncommitted transaction, a get on a key just written sees
the most recent pending operation — the put value, the deletion, or the merge
operand combined by the merge operator — for every possible engine state, so
such a read never returns the value stored in the engine. -/
theorem read_your_writes (e0 : Engine) (t : Txn) (k : Key) (v : Val)
    (hs : t.state = .active) :
    (∀ e : Engine, (get e ((put e0 t k v).2) k).1 = .ok (some v)) ∧
    (∀ e : Engine, (get e ((delete e0 t k).2) k).1 = .ok none) ∧
    (∀ e : Engine, e.resolvesMergeOnRead = true →
      (get e ((merge e0 t k v).2) k).1
        = .ok (some (e.mergeOp (e.committed k) v))) := by
  have hst1 : (put e0 t k v).2.state = .active := by
    rw [show (put e0 t k v).2 = step e0 t (.putOp k v) from rfl, step_state]
    exact hs
  have hst2 : (delete e0 t k).2.state = .active := by
    rw [show (delete e0 t k).2 = step e0 t (.deleteOp k) from rfl, step_state]
    exact hs
  have hst3 : (merge e0 t k v).2.state = .active := by
    rw [show (merge e0 t k v).2 = step e0 t (.mergeWriteOp k v) from rfl,
      step_state]
    exact hs
  refine ⟨?_, ?_, ?_⟩
  · intro e
    simp [get, hst1, txnRead, put_buffer e0 t k v hs, pendingOp_append_self]
  · intro e
    simp [get, hst2, txnRead, delete_buffer e0 t k hs, pendingOp_append_self]
  · intro e hr
    simp [get, hst3, txnRead, merge_buffer e0 t k v hs,
      pendingOp_append_self, hr]

/-- Witness for C5: on the fresh transaction, a put of value `[7]` at key
`[1]` is seen by a subsequent get in the same transaction even though
`engine0` stores nothing at that key. -/
theorem read_your_writes_witness :
    (beginTxn .optimistic none).state = .active ∧
    (get engine0 ((put engine0 (beginTxn .optimistic none) [1] [7]).2) [1]).1
      = .ok (some [7]) := by
  have h := read_your_writes engine0 (beginTxn .optimistic none) [1] [7] rfl
  exact ⟨rfl, h.1 engine0⟩

theorem commit_ok_validate (e : Engine) (t : Txn) (hs : t.state = .active)
    (hm : t.mode = .optimistic) (hok : (commit e t false).1 = .ok ()) :
    validate e t.conflictRecs = none := by
  rcases validate_cases e t.conflictRecs with h | h | h
  · exact h
  · exfalso
    unfold commit at hok
    simp [hs, hm, h] at hok
  · exfalso
    unfold commit at hok
    simp [hs, hm, h] at hok

/-- C6: for a key first read via `get_for_update` in an active optimistic
transaction, the key's observed version is recorded as a conflict record, and
any transaction carrying that record can only commit against an engine whose
currently-committed version of the key equals the recorded version — so a
write of the key outside the transaction after the recorded point makes
commit fail. -/
theorem get_for_update_records_version (e : Engine) (t : Txn) (k : Key)
    (exclusive : Bool) (g : LockGrant) (hs : t.state = .active)
    (hm : t.mode = .optimistic)
    (hnew : t.conflictRecs.any (fun kv => decide (kv.1 = k)) = false) :
    (k, observedVersion e t k)
      ∈ ((get_for_update e t k exclusive g).2).conflictRecs ∧
    (∀ e2 : Engine, ∀ t2 : Txn, t2.state = .active → t2.mode = .optimistic →
      (k, observedVersion e t k) ∈ t2.conflictRecs →
      (commit e2 t2 false).1 = .ok () →
      e2.version k = observedVersion e t k) := by
  constructor
  · unfold get_for_update
    rw [if_pos hs]
    rw [show (match t.mode with
        | Mode.optimistic =>
          (txnRead e (recordVersion e t k) k, recordVersion e t k)
        | Mode.pessimistic =>
          match g with
          | LockGrant.timedOut => ((.error .lockTimeout : Except TxError (Option Val)), t)
          | LockGrant.deadlocked => ((.error .deadlock : Except TxError (Option Val)), t)
          | LockGrant.granted =>
            (txnRead e { t with locks := t.locks ++ [(k, exclusive)] } k,
              { t with locks := t.locks ++ [(k, exclusive)] }))
        = (txnRead e (recordVersion e t k) k, recordVersion e t k) from by
      rw [hm]]
    unfold recordVersion
    rw [if_neg (by simp [hnew])]
    simp
  · intro e2 t2 hs2 hm2 hmem hok
    have hval := commit_ok_validate e2 t2 hs2 hm2 hok
    exact (validate_none_mem e2 t2.conflictRecs hval
      (k, observedVersion e t k) hmem).1

/-- Witness for C6: on the fresh optimistic transaction, `get_for_update`
of key `[2]` records that key with its observed version. -/
theorem get_for_update_records_version_witness :
    (beginTxn .optimistic none).state = .active ∧
    ([2], observedVersion engine0 (beginTxn .optimistic none) [2])
      ∈ ((get_for_update engine0 (beginTxn .optimistic none) [2] true
          .granted).2).conflictRecs := by
  have h := get_for_update_records_version engine0 (beginTxn .optimistic none)
    [2] true .granted rfl rfl rfl
  exact ⟨rfl, h.1⟩

/-- C7: a transactional get on a key whose most recent pending write-buffer
operation is a `Merge`, on an engine that cannot resolve the merge
transparently during a transactional read, returns `MergeInProgress` rather
than a value. -/
theorem pending_merge_unresolved_read (e : Engine) (t : Txn) (k : Key)
    (v : Val) (hs : t.state = .active)
    (hp : pendingOp t.buffer k = some (.mergev v))
    (hr : e.resolvesMergeOnRead = false) :
    (get e t k).1 = .error .mergeInProgress := by
  simp [get, hs, txnRead, hp, hr]

/-- Witness for C7: after a merge of `[9]` at key `[3]` in the fresh
transaction, a get on `engine0` (which cannot resolve merges during
transactional reads) fails with `MergeInProgress`. -/
theorem pending_merge_unresolved_read_witness :
    (merge engine0 (beginTxn .optimistic none) [3] [9]).2.state = .active ∧
    pendingOp (merge engine0 (beginTxn .optimistic none) [3] [9]).2.buffer [3]
      = some (.mergev [9]) ∧
    engine0.resolvesMergeOnRead = false ∧
    (get engine0 (merge engine0 (beginTxn .optimistic none) [3] [9]).2 [3]).1
      = .error .mergeInProgress := by
  refine ⟨rfl, rfl, rfl, ?_⟩
  exact pending_merge_unresolved_read engine0
    (merge engine0 (beginTxn .optimistic none) [3] [9]).2 [3] [9] rfl rfl rfl

theorem commit_ok_state (e : Engine) (t : Txn) (expiredNow : Bool)
    (hok : (commit e t expiredNow).1 = .ok ()) :
    (commit e t expiredNow).2.2.state = .committed := by
  by_cases hs : t.state = .active
  · cases expiredNow with
    | true =>
      exfalso
      unfold commit at hok
      simp [hs] at hok
    | false =>
      cases hmode : t.mode with
      | pessimistic =>
        unfold commit
        simp [hs, hmode]
      | optimistic =>
        rcases validate_cases e t.conflictRecs with hval | hval | hval
        all_goals
          unfold commit at hok ⊢
          simp [hs, hmode, hval] at hok ⊢
  · exfalso
    unfold commit at hok
    simp [hs] at hok

theorem terminal_ops_error (e : Engine) (t2 : Txn) (expired2 : Bool)
    (hterm : t2.state = .committed ∨ t2.state = .rolledBack) :
    (commit e t2 expired2).1 = .error .invalidState ∧
    (rollback e t2).1 = .error .invalidState ∧
    (set_savepoint t2).1 = .error .invalidState ∧
    (rollback_to_savepoint t2).1 = .error .invalidState ∧
    (∀ k, (get e t2 k).1 = .error .invalidState) ∧
    (∀ k exclusive g, (get_for_update e t2 k exclusive g).1
      = .error .invalidState) ∧
    (∀ k v, (put e t2 k v).1 = .error .invalidState) ∧
    (∀ k, (delete e t2 k).1 = .error .invalidState) ∧
    (∀ k v, (merge e t2 k v).1 = .error .invalidState) := by
  have hne : ¬ t2.state = .active := by
    rcases hterm with h | h <;> rw [h] <;> intro hc <;> cases hc
  unfold commit rollback set_savepoint rollback_to_savepoint get
    get_for_update put delete merge
  simp [hne]

/-- C8: a commit that succeeds moves the transaction to the terminal
`Committed` state, and a second commit on it signals `InvalidState`; more
generally, every operation attempted on a transaction in a terminal state
(`Committed` or `RolledBack`) signals `InvalidState`. -/
theorem terminal_operations_invalid_state (e : Engine) (t : Txn)
    (expiredNow expired2 : Bool)
    (hok : (commit e t expiredNow).1 = .ok ()) :
    (commit e (commit e t expiredNow).2.2 expired2).1
      = .error .invalidState ∧
    (∀ t2 : Txn, t2.state = .committed ∨ t2.state = .rolledBack →
      (commit e t2 expired2).1 = .error .invalidState ∧
      (rollback e t2).1 = .error .invalidState ∧
      (set_savepoint t2).1 = .error .invalidState ∧
      (rollback_to_savepoint t2).1 = .error .invalidState ∧
      (∀ k, (get e t2 k).1 = .error .invalidState) ∧
      (∀ k exclusive g, (get_for_update e t2 k exclusive g).1
        = .error .invalidState) ∧
      (∀ k v, (put e t2 k v).1 = .error .invalidState) ∧
      (∀ k, (delete e t2 k).1 = .error .invalidState) ∧
      (∀ k v, (merge e t2 k v).1 = .error .invalidState)) := by
  constructor
  · exact (terminal_ops_error e (commit e t expiredNow).2.2 expired2
      (Or.inl (commit_ok_state e t expiredNow hok))).1
  · intro t2 hterm
    exact terminal_ops_error e t2 expired2 hterm

/-- Witness for C8: the fresh optimistic transaction commits successfully in
`engine0`, and committing the result again signals `InvalidState`. -/
theorem terminal_operations_invalid_state_witness :
    (commit engine0 (beginTxn .optimistic none) false).1 = .ok () ∧
    (commit engine0
        (commit engine0 (beginTxn .optimistic none) false).2.2 false).1
      = .error .invalidState := by
  have h := terminal_operations_invalid_state engine0
    (beginTxn .optimistic none) false false rfl
  exact ⟨rfl, h.1⟩

/-- A concrete active pessimistic transaction holding one lock record and one
buffered write, for exercising drop-as-rollback. -/
def txnLocked : Txn :=
  { beginTxn .pessimistic none with
      locks := [([5], true)]
      buffer := [([5], .putv [1])] }

/-- C9: dropping a still-active transaction behaves exactly as rollback — the
resulting engine and transaction state coincide with those of `rollback`, all
lock records are released, the write buffer is discarded, the engine is
untouched, and the transaction reaches the terminal `RolledBack` state (so the
handle released by the destructor is never released again through the
commit/rollback paths). -/
theorem drop_active_is_rollback (e : Engine) (t : Txn)
    (hs : t.state = .active) :
    dropTxn e t = (rollback e t).2 ∧
    (dropTxn e t).1 = e ∧
    (dropTxn e t).2.locks = [] ∧
    (dropTxn e t).2.buffer = [] ∧
    (dropTxn e t).2.state = .rolledBack := by
  unfold dropTxn rollback
  simp [hs]

/-- Witness for C9: dropping the active `txnLocked` in `engine0` releases its
lock record, discards its buffered write, and leaves the engine unchanged. -/
theorem drop_active_is_rollback_witness :
    txnLocked.state = .active ∧
    (dropTxn engine0 txnLocked).2.locks = [] ∧
    (dropTxn engine0 txnLocked).2.buffer = [] ∧
    (dropTxn engine0 txnLocked).1 = engine0 := by
  have h := drop_active_is_rollback engine0 txnLocked rfl
  exact ⟨rfl, h.2.2.1, h.2.2.2.1, h.2.1⟩

end Model

namespace Wrapper

/-- C10: with no FFI error reported, every get-family wrapper returns `None`
exactly when the engine returned a null value pointer, and otherwise returns
`Some` of a value whose length equals the engine-reported `val_len`; the
column-family and for-update variants translate the raw result identically,
so a missing key is never confused with an empty value. -/
theorem get_result_translation (r : RawGetResult) (h : r.errptr = none) :
    (get_opt r = .ok none ↔ r.val_ptr = none) ∧
    (∀ mem, r.val_ptr = some mem →
      get_opt r = .ok (some (dbVectorFromC mem r.val_len)) ∧
      (dbVectorFromC mem r.val_len).length = r.val_len) ∧
    (∀ cf exclusive,
      get_cf_opt cf r = get_opt r ∧
      get_for_update_opt exclusive r = get_opt r ∧
      get_for_update_cf_opt cf exclusive r = get_opt r ∧
      get r = get_opt r ∧
      get_cf cf r = get_opt r) := by
  refine ⟨?_, ?_, ?_⟩
  · unfold get_opt
    rw [h]
    cases hv : r.val_ptr with
    | none => simp
    | some mem => simp [hv]
  · intro mem hv
    unfold get_opt
    rw [h, hv]
    exact ⟨rfl, by simp [dbVectorFromC]⟩
  · intro cf exclusive
    exact ⟨rfl, rfl, rfl, rfl, rfl⟩

/-- The raw FFI outcome of a successful lookup that found no value: no error,
null value pointer, reported length zero. -/
def rawNull : RawGetResult :=
  { errptr := none, val_ptr := none, val_len := 0 }

/-- Witness for C10: on a successful call returning a null pointer,
`get_opt` yields `Ok(None)`. -/
theorem get_result_translation_witness :
    rawNull.errptr = none ∧ (get_opt rawNull = .ok none ↔ rawNull.val_ptr = none) := by
  have h := get_result_translation rawNull rfl
  exact ⟨rfl, h.1⟩

end Wrapper

end RocksTx